import Mathlib

/-!
Shallow embedding of the pytask worker engine (`pytask/pytask.py` and
`pytask/task.py`).

Modelling conventions:

* Python dictionaries over string keys are modelled as association lists when
  the source iterates over them (`self._tasks`), and as functions
  `String → Option _` otherwise (the coordinator hashes, the greenlet table,
  the registered task classes).  Redis sets and pub/sub subscription tables are
  modelled as `String → Bool`.
* Stateful code is explicit state passing over `EngineState`.  Fallible code
  returns the state reached so far paired with an optional uncaught Python
  exception (`EResult`); `bindE` sequences such computations, stopping at the
  first uncaught exception, exactly as an exception propagating out of a
  Python statement skips the rest of the function.
* Greenlet handles carry no observable data, so the greenlet table stores
  `Unit`; killing a greenlet with the `StopTask` sentinel has no observable
  effect on the engine state (the resulting `StopTask` arrival is filtered by
  `_on_task_exception`, pytask.py line 453).
* User task classes are external code; a registered class is abstracted by
  `TaskClassDef`, whose `initExc` field says whether constructing it (JSON
  parse included) raises.  Task instances are modelled with the base-class
  behaviour of `Task` (`Task.stop` is a no-op, task.py line 32).
* Exception handlers registered with `add_exception_handler` are abstracted by
  `Handler` (an id plus whether the callable raises); invocations are recorded
  in the `handlerCalls` event log in call order.
* `helpers.py` is not among the provided sources; the helper functions used by
  the engine (`get_task`, `set_task`, the key schema) are modelled from the
  spec and marked as such in their doc comments.
* Wall-clock time (`time.time()`) is passed in as an explicit `now : Nat`
  parameter at the call sites that read the clock.
-/

/-- Python exceptions the engine can observe: the `StopTask` cancellation
sentinel, a task-raised `Task.Error`, the engine's `MissingTaskError`, the
`TypeError` raised by `json.loads` on a non-string, a generic task-body
exception (e.g. `ValueError`), the `AttributeError` raised when reading a
method off `None`, a dictionary `KeyError`, and an exception raised by a
registered exception handler. -/
inductive Exc where
  | stopTask
  | taskError (message : String)
  | missingTaskError
  | typeError
  | otherExc (name : String)
  | attributeError
  | keyError (key : String)
  | handlerExc (hid : Nat)
  deriving DecidableEq, Repr

/-- Coordinator-resident per-task hash (spec section 3): the fields the engine
reads or writes.  Absent fields are `none`. -/
structure TaskHash where
  task : Option String
  data : Option String
  cleanup : Option String
  state : Option String
  output : Option String
  lastUpdate : Option Nat
  localField : Option String
  deriving DecidableEq, Repr

/-- In-memory task instance as built by `_add_task` (pytask.py lines 319-340).
`_redis` is the class attribute read by `Task.emit` (task.py line 18: default
`None`); `redis` is the distinct instance attribute the engine assigns at
pytask.py line 339.  `className` and `dataUsed` record which registered class
the instance came from and the serialized `data` string it was constructed
with. -/
structure TaskInst where
  _id : String
  _channel : String
  _state : String
  _cleanup : Bool
  _redis : Option Unit
  redis : Option Unit
  className : String
  dataUsed : String
  deriving DecidableEq, Repr

/-- A registered task class: its declared `NAME` and whether instantiating it
(JSON parse plus constructor, pytask.py lines 320-326) raises; `initExc` holds
the name of the raised exception when it does. -/
structure TaskClassDef where
  name : String
  initExc : Option String
  deriving DecidableEq, Repr

/-- A registered exception handler: an identifier and whether calling it
raises. -/
structure Handler where
  hid : Nat
  hraises : Bool
  deriving DecidableEq, Repr

/-- The combined coordinator and worker state the engine manipulates.
Coordinator side: `hashes`, `taskSet`, `newQueue`, `endQueue`, plus the
`published` pub/sub event log.  Worker side: `tasks` (`self._tasks`),
`taskGreenlets` (`self._task_greenlets`), `channelSubs`
(`self._channel_subscriptions`, a channel-name set since each per-task channel
determines its callback), `localTaskIds`, `taskClasses`, `exceptionHandlers`,
and the instrumentation logs `handlerCalls` and `criticalLogs`. -/
structure EngineState where
  hashes : String → Option TaskHash
  taskSet : String → Bool
  newQueue : List String
  endQueue : List String
  published : List (String × String × Option String)
  criticalLogs : List String
  tasks : List (String × TaskInst)
  taskGreenlets : String → Option Unit
  channelSubs : String → Bool
  localTaskIds : String → Bool
  taskClasses : String → Option TaskClassDef
  exceptionHandlers : List Handler
  handlerCalls : List (Nat × Exc)

/-- Result of a possibly-raising engine step: the state reached, plus the
uncaught exception when one escaped. -/
abbrev EResult := EngineState × Option Exc

/-- Sequencing with Python exception propagation: once an exception has
escaped, subsequent statements do not run. -/
def bindE (r : EResult) (f : EngineState → EResult) : EResult :=
  match r.2 with
  | some _ => r
  | none => f r.1

/-- Association-list lookup, mirroring Python `d[k]` / `d.get(k)`. -/
def alookup {α : Type} (k : String) : List (String × α) → Option α
  | [] => none
  | (k', v) :: rest => if k' = k then some v else alookup k rest

/-- Association-list write `d[k] = v`: update in place, else append. -/
def aset {α : Type} (k : String) (v : α) : List (String × α) → List (String × α)
  | [] => [(k, v)]
  | (k', w) :: rest => if k' = k then (k, v) :: rest else (k', w) :: aset k v rest

/-- Association-list delete `del d[k]`. -/
def aremove {α : Type} (k : String) (l : List (String × α)) : List (String × α) :=
  l.filter (fun p => p.1 ≠ k)

/-- Functional-map write. -/
def mset {α : Type} (k : String) (v : α) (m : String → Option α) : String → Option α :=
  fun x => if x = k then some v else m x

/-- Functional-map delete (`redis.delete`, `del d[k]`). -/
def mdel {α : Type} (k : String) (m : String → Option α) : String → Option α :=
  fun x => if x = k then none else m x

/-- Redis `SADD` on a set modelled as a characteristic function. -/
def sadd (k : String) (m : String → Bool) : String → Bool :=
  fun x => if x = k then true else m x

/-- Redis `SREM` (also used for dropping a pub/sub subscription). -/
def srem (k : String) (m : String → Bool) : String → Bool :=
  fun x => if x = k then false else m x

/-- Number of occurrences of an ID in a coordinator list. -/
def lcount (x : String) : List String → Nat
  | [] => 0
  | y :: rest => (if y = x then 1 else 0) + lcount x rest

/-- The keys of an association list are pairwise distinct — the invariant every
Python dictionary satisfies by construction. -/
def keysNodup {α : Type} (l : List (String × α)) : Prop :=
  (l.map Prod.fst).Nodup

instance {α : Type} (l : List (String × α)) : Decidable (keysNodup l) := by
  unfold keysNodup; infer_instance

/-- Modelled from the spec: the key schema lives in `helpers.py`, which is not
among the provided sources.  Spec section 6: the per-task hash key — which is
also the event channel — is `"<prefix>-<id>"` with default prefix `"task"`. -/
def taskKey (tid : String) : String := "task-" ++ tid

/-- Modelled from the spec: per-task control channel name, an
"implementation-chosen convention, e.g. `<prefix>-<id>-control`"
(spec section 6). -/
def taskControl (tid : String) : String := "task-" ++ tid ++ "-control"

/-- A coordinator hash with every field absent. -/
def emptyHash : TaskHash := ⟨none, none, none, none, none, none, none⟩

/-- Modelled from the spec: `PyTaskHelpers.set_task` lives in the missing
`helpers.py`.  Per spec section 3 the task record is a coordinator-resident
hash; writing fields merges them into the hash, creating it when absent
(Redis `HMSET` semantics). -/
def setTaskF (tid : String) (f : TaskHash → TaskHash)
    (hs : String → Option TaskHash) : String → Option TaskHash :=
  fun x => if x = tid then some (f ((hs tid).getD emptyHash)) else hs x

/-- State-level wrapper for `set_task`. -/
def setTask (tid : String) (f : TaskHash → TaskHash) (s : EngineState) : EngineState :=
  { s with hashes := setTaskF tid f s.hashes }

/-- Modelled from the spec: `PyTaskHelpers.get_task` lives in the missing
`helpers.py`.  Per spec section 4.6, `add_task` "reads fields `task`, `data`,
`cleanup` from the coordinator hash" and "if the hash is missing, logs a
critical record and returns"; so `get_task` yields the three requested fields
when the hash exists and nothing when it is missing. -/
def getTask (tid : String) (s : EngineState) :
    Option (Option String × Option String × Option String) :=
  (s.hashes tid).map (fun h => (h.task, h.data, h.cleanup))

/-- Embedding of `Task.emit` (task.py lines 35-40): publish a JSON object with
an `event` and a `data` member on the task's channel.  The publish goes
through `self._redis`; when that attribute is `None` (its class default,
task.py line 18) the attribute access on `None` raises `AttributeError` and
nothing is published. -/
def Task_emit (inst : TaskInst) (event : String) (payload : Option String)
    (s : EngineState) : EResult :=
  match inst._redis with
  | none => (s, some Exc.attributeError)
  | some _ => ({ s with published := s.published ++ [(inst._channel, event, payload)] }, none)

/-- Embedding of `PyTask._handle_end_task` (pytask.py lines 422-445): write
`state` and `output` to the coordinator hash; if the task is still in
`self._tasks`, set its in-memory `_state` and emit the lower-cased state as an
event.  The optional `log_func` call is unobservable logging and is omitted. -/
def handleEndTask (tid : String) (st : String) (output : Option String)
    (s : EngineState) : EResult :=
  let s1 := setTask tid (fun h => { h with state := some st, output := output }) s
  match alookup tid s1.tasks with
  | none => (s1, none)
  | some inst =>
    let inst' := { inst with _state := st }
    Task_emit inst' st.toLower output { s1 with tasks := aset tid inst' s1.tasks }

/-- Tail of `PyTask._cleanup_task` (pytask.py lines 526-531): push to the end
queue and leave the active set when both `enqueue` and `cleanup` hold. -/
def cleanupFinish (tid : String) (enqueue cleanup : Bool) (s : EngineState) : EResult :=
  if enqueue && cleanup then
    ({ s with endQueue := tid :: s.endQueue, taskSet := srem tid s.taskSet }, none)
  else (s, none)

/-- Embedding of `PyTask._cleanup_task` (pytask.py lines 505-531): unsubscribe
the control channel; `cleanup` defaults to `True` and becomes the task's
`_cleanup` flag only while the task is still in `self._tasks`; a live task's
greenlet is killed (`KeyError` if the greenlet entry is missing) and both
table entries are removed; finally the end-queue handoff. -/
def cleanupTask (tid : String) (enqueue : Bool) (s : EngineState) : EResult :=
  let s1 := { s with channelSubs := srem (taskControl tid) s.channelSubs }
  match alookup tid s1.tasks with
  | none => cleanupFinish tid enqueue true s1
  | some inst =>
    match s1.taskGreenlets tid with
    | none => (s1, some (Exc.keyError tid))
    | some _ =>
      cleanupFinish tid enqueue inst._cleanup
        { s1 with tasks := aremove tid s1.tasks
                , taskGreenlets := mdel tid s1.taskGreenlets }

/-- The handler loop of `_on_task_exception` (pytask.py lines 467-469): each
registered handler is called with the original exception, in insertion order;
there is no isolation, so a raising handler aborts the loop. -/
def runHandlers (e : Exc) : List Handler → EngineState → EResult
  | [], s => (s, none)
  | h :: rest, s =>
    let s1 := { s with handlerCalls := s.handlerCalls ++ [(h.hid, e)] }
    if h.hraises then (s1, some (Exc.handlerExc h.hid)) else runHandlers e rest s1

/-- Embedding of `PyTask._on_task_error` (pytask.py lines 474-484). -/
def onTaskError (tid : String) (message : String) (s : EngineState) : EResult :=
  bindE (handleEndTask tid "ERROR" (some message) s) (cleanupTask tid true)

/-- Stand-in for `traceback.format_exc()`: some rendering of the traceback
text; its exact contents never influence the engine's control flow. -/
def format_exc (e : Exc) : String :=
  match e with
  | Exc.stopTask => "Traceback: StopTask"
  | Exc.taskError m => "Traceback: Error: " ++ m
  | Exc.missingTaskError => "Traceback: MissingTaskError"
  | Exc.typeError => "Traceback: TypeError"
  | Exc.otherExc n => "Traceback: " ++ n
  | Exc.attributeError => "Traceback: AttributeError"
  | Exc.keyError k => "Traceback: KeyError " ++ k
  | Exc.handlerExc _ => "Traceback: handler"

/-- Embedding of `PyTask._on_task_exception` (pytask.py lines 447-472):
`StopTask` is dropped, `Task.Error` is delegated to `_on_task_error`, and any
other exception writes the `EXCEPTION` terminal state, runs the exception
handlers, and cleans up. -/
def onTaskException (tid : String) (e : Exc) (s : EngineState) : EResult :=
  match e with
  | Exc.stopTask => (s, none)
  | Exc.taskError m => onTaskError tid m s
  | _ =>
    bindE (handleEndTask tid "EXCEPTION" (some (format_exc e)) s) (fun s1 =>
      bindE (runHandlers e s1.exceptionHandlers s1) (cleanupTask tid true))

/-- Embedding of `PyTask._on_task_success` (pytask.py lines 486-503): arrivals
for unknown tasks and for tasks whose `_state` is `STOPPED` or `_STOPPED` are
dropped. -/
def onTaskSuccess (tid : String) (value : Option String) (s : EngineState) : EResult :=
  match alookup tid s.tasks with
  | none => (s, none)
  | some inst =>
    if inst._state = "STOPPED" ∨ inst._state = "_STOPPED" then (s, none)
    else bindE (handleEndTask tid "SUCCESS" value s) (cleanupTask tid true)

/-- Embedding of `PyTask._start_task` (pytask.py lines 361-385): spawn the
task's greenlet (its completion hooks are the `onTask…` functions above),
store the handle, and set `RUNNING` in memory and in the coordinator hash. -/
def startTask (tid : String) (s : EngineState) : EResult :=
  match alookup tid s.tasks with
  | none => (s, some (Exc.keyError tid))
  | some inst =>
    let s1 := { s with taskGreenlets := mset tid () s.taskGreenlets }
    let s2 := { s1 with tasks := aset tid { inst with _state := "RUNNING" } s1.tasks }
    (setTask tid (fun h => { h with state := some "RUNNING" }) s2, none)

/-- Embedding of `task._cleanup = task_cleanup != 'false'`
(pytask.py line 336). -/
def cleanupFlag (c : Option String) : Bool := c != some "false"

/-- Embedding of `PyTask._add_task` (pytask.py lines 271-345): read the hash
fields (critical log and return when the hash is missing); add the ID to the
active set; write `state=RUNNING, last_update=now`; subscribe the control
channel; route an unregistered class through `_on_task_exception`
(`MissingTaskError`); a missing `data` field is defaulted to a dict, which
`json.loads` then rejects with `TypeError` (pytask.py lines 287-288, 321),
routed the same way, as is any constructor failure; otherwise build the
instance, store it, and start it. -/
def addTask (now : Nat) (tid : String) (s : EngineState) : EResult :=
  match getTask tid s with
  | none =>
    ({ s with criticalLogs :=
        s.criticalLogs ++ ["Task ID in new queue but no hash: " ++ tid] }, none)
  | some (taskF, dataF, cleanupF) =>
    let s1 := { s with taskSet := sadd tid s.taskSet }
    let s2 := setTask tid (fun h => { h with state := some "RUNNING", lastUpdate := some now }) s1
    let s3 := { s2 with channelSubs := sadd (taskControl tid) s2.channelSubs }
    match taskF with
    | none => onTaskException tid Exc.missingTaskError s3
    | some cname =>
      match s3.taskClasses cname with
      | none => onTaskException tid Exc.missingTaskError s3
      | some cls =>
        match dataF with
        | none => onTaskException tid Exc.typeError s3
        | some dstr =>
          match cls.initExc with
          | some m => onTaskException tid (Exc.otherExc m) s3
          | none =>
            let inst : TaskInst :=
              { _id := tid, _channel := taskKey tid, _state := "WAIT"
              , _cleanup := cleanupFlag cleanupF, _redis := none, redis := some ()
              , className := cname, dataUsed := dstr }
            startTask tid { s3 with tasks := aset tid inst s3.tasks }

/-- Embedding of `PyTask._stop_task` (pytask.py lines 400-420): look up the
task (`KeyError` when unknown), set `STOPPED` in memory and in the hash before
calling `stop`, kill the greenlet (`KeyError` when its entry is missing), and
clean up without enqueueing. -/
def stopTask (tid : String) (s : EngineState) : EResult :=
  match alookup tid s.tasks with
  | none => (s, some (Exc.keyError tid))
  | some inst =>
    let s1 := { s with tasks := aset tid { inst with _state := "STOPPED" } s.tasks }
    let s2 := setTask tid (fun h => { h with state := some "STOPPED" }) s1
    match s2.taskGreenlets tid with
    | none => (s2, some (Exc.keyError tid))
    | some _ => cleanupTask tid false s2

/-- Embedding of `PyTask._reload_task` (pytask.py lines 387-398). -/
def reloadTask (now : Nat) (tid : String) (s : EngineState) : EResult :=
  bindE (stopTask tid s) (addTask now tid)

/-- Embedding of `PyTask._control_task` (pytask.py lines 347-359); unknown
payloads are logged at warning and ignored. -/
def controlTask (now : Nat) (tid : String) (message : String) (s : EngineState) : EResult :=
  if message = "stop" then stopTask tid s
  else if message = "reload" then reloadTask now tid s
  else (s, none)

/-- Hash updates performed by one liveness tick (`PyTask._update_tasks`,
pytask.py lines 542-554): iterate the task table, stamping `last_update` on
every `RUNNING` entry with the single timestamp captured at tick start. -/
def updateTasksH (now : Nat) :
    List (String × TaskInst) → (String → Option TaskHash) → (String → Option TaskHash)
  | [], hs => hs
  | (tid, inst) :: rest, hs =>
    updateTasksH now rest
      (if inst._state = "RUNNING"
       then setTaskF tid (fun h => { h with lastUpdate := some now }) hs
       else hs)

/-- Embedding of `PyTask._update_tasks` at the state level. -/
def updateTasks (now : Nat) (s : EngineState) : EngineState :=
  { s with hashes := updateTasksH now s.tasks s.hashes }

/-- One iteration of the clean-shutdown loop (`PyTask.run`, pytask.py lines
187-202): skip non-`RUNNING` entries; stop the task; then delete the hash and
leave the active set for local tasks, or left-push the ID onto the new queue
for normal tasks. -/
def shutdownStep (acc : EResult) (tid : String) : EResult :=
  bindE acc (fun s =>
    match alookup tid s.tasks with
    | none => (s, some (Exc.keyError tid))
    | some inst =>
      if inst._state = "RUNNING" then
        bindE (stopTask tid s) (fun s1 =>
          if s1.localTaskIds tid then
            ({ s1 with hashes := mdel tid s1.hashes, taskSet := srem tid s1.taskSet }, none)
          else
            ({ s1 with newQueue := tid :: s1.newQueue }, none))
      else (s, none))

/-- The clean-shutdown loop over a snapshot of the task table's keys
(`self._tasks.keys()` is evaluated once, pytask.py line 187). -/
def shutdownRequeue (s : EngineState) : EResult :=
  (s.tasks.map Prod.fst).foldl shutdownStep (s, none)

/-- The worker state with one task's local bookkeeping removed: the comparison
point for the reload round-trip law — a state in which a fresh `_add_task` of
the ID can run. -/
def stripTask (tid : String) (s : EngineState) : EngineState :=
  { s with tasks := aremove tid s.tasks
         , taskGreenlets := mdel tid s.taskGreenlets
         , channelSubs := srem (taskControl tid) s.channelSubs }

/-! ### Lemmas about the map and association-list helpers -/

theorem alookup_aset_self {α : Type} (k : String) (v : α) (l : List (String × α)) :
    alookup k (aset k v l) = some v := by
  induction l with
  | nil => simp [alookup, aset]
  | cons p rest ih =>
    obtain ⟨k', w⟩ := p
    by_cases h : k' = k
    · simp [aset, h, alookup]
    · simp [aset, h, alookup, ih]

theorem alookup_aset_ne {α : Type} (k k' : String) (v : α) (l : List (String × α))
    (h : k ≠ k') : alookup k' (aset k v l) = alookup k' l := by
  induction l with
  | nil => simp [alookup, aset, h]
  | cons p rest ih =>
    obtain ⟨k'', w⟩ := p
    by_cases h2 : k'' = k
    · subst h2
      simp [aset, alookup, h]
    · simp [aset, h2, alookup, ih]

theorem alookup_aremove_self {α : Type} (k : String) (l : List (String × α)) :
    alookup k (aremove k l) = none := by
  induction l with
  | nil => simp [alookup, aremove]
  | cons p rest ih =>
    obtain ⟨k', w⟩ := p
    by_cases h : k' = k
    · simpa [aremove, h] using ih
    · simpa [aremove, alookup, h] using ih

theorem aremove_cons {α : Type} (k k' : String) (w : α) (rest : List (String × α)) :
    aremove k ((k', w) :: rest)
      = if k' = k then aremove k rest else (k', w) :: aremove k rest := by
  by_cases h : k' = k <;> simp [aremove, h]

theorem alookup_aremove_ne {α : Type} (k k' : String) (l : List (String × α))
    (h : k ≠ k') : alookup k' (aremove k l) = alookup k' l := by
  induction l with
  | nil => simp [alookup, aremove]
  | cons p rest ih =>
    obtain ⟨k'', w⟩ := p
    by_cases h2 : k'' = k
    · have h4 : ¬ k'' = k' := by rw [h2]; exact h
      simp [aremove_cons, h2, alookup, h4, h, ih]
    · by_cases h4 : k'' = k'
      · simp [aremove_cons, h2, alookup, h4, Ne.symm h]
      · simp [aremove_cons, h2, alookup, h4, ih]

theorem aremove_aset {α : Type} (k : String) (v : α) (l : List (String × α)) :
    aremove k (aset k v l) = aremove k l := by
  induction l with
  | nil => simp [aset, aremove]
  | cons p rest ih =>
    obtain ⟨k', w⟩ := p
    by_cases h : k' = k
    · simp [aset, h, aremove_cons]
    · simp [aset, h, aremove_cons, ih]

theorem aset_aset {α : Type} (k : String) (v w : α) (l : List (String × α)) :
    aset k v (aset k w l) = aset k v l := by
  induction l with
  | nil => simp [aset]
  | cons p rest ih =>
    obtain ⟨k', u⟩ := p
    by_cases h : k' = k
    · simp [aset, h]
    · simp [aset, h, ih]

theorem alookup_eq_none_of_not_mem {α : Type} (k : String) (l : List (String × α))
    (h : k ∉ l.map Prod.fst) : alookup k l = none := by
  induction l with
  | nil => simp [alookup]
  | cons p rest ih =>
    obtain ⟨k', v⟩ := p
    simp only [List.map_cons, List.mem_cons] at h
    push_neg at h
    have h1 : k' ≠ k := fun hk => h.1 hk.symm
    simp [alookup, h1, ih h.2]

theorem mem_keys_of_alookup_some {α : Type} (k : String) (v : α) (l : List (String × α))
    (h : alookup k l = some v) : k ∈ l.map Prod.fst := by
  by_contra hn
  rw [alookup_eq_none_of_not_mem k l hn] at h
  exact Option.noConfusion h

theorem lcount_cons_self (x : String) (l : List String) :
    lcount x (x :: l) = lcount x l + 1 := by
  simp [lcount, Nat.add_comm]

theorem lcount_cons_ne (x y : String) (l : List String) (h : y ≠ x) :
    lcount x (y :: l) = lcount x l := by
  simp [lcount, h]

theorem mset_setTaskF (k : String) (v : TaskHash) (f : TaskHash → TaskHash)
    (hs : String → Option TaskHash) : mset k v (setTaskF k f hs) = mset k v hs := by
  funext x
  by_cases h : x = k <;> simp [mset, setTaskF, h]

theorem mdel_setTaskF (k : String) (f : TaskHash → TaskHash)
    (hs : String → Option TaskHash) : mdel k (setTaskF k f hs) = mdel k hs := by
  funext x
  by_cases h : x = k <;> simp [mdel, setTaskF, h]

theorem setTaskF_known (k : String) (f : TaskHash → TaskHash)
    (hs : String → Option TaskHash) (h0 : TaskHash) (h : hs k = some h0) :
    setTaskF k f hs = mset k (f h0) hs := by
  funext x
  by_cases hx : x = k <;> simp [setTaskF, mset, hx, h]

theorem setTaskF_mset (k : String) (f : TaskHash → TaskHash) (v : TaskHash)
    (hs : String → Option TaskHash) : setTaskF k f (mset k v hs) = mset k (f v) hs := by
  funext x
  by_cases hx : x = k <;> simp [setTaskF, mset, hx]

theorem srem_srem (k : String) (m : String → Bool) : srem k (srem k m) = srem k m := by
  funext x
  by_cases h : x = k <;> simp [srem, h]

theorem sadd_srem (k : String) (m : String → Bool) : sadd k (srem k m) = sadd k m := by
  funext x
  by_cases h : x = k <;> simp [sadd, srem, h]

theorem mset_mdel {α : Type} (k : String) (v : α) (m : String → Option α) :
    mset k v (mdel k m) = mset k v m := by
  funext x
  by_cases h : x = k <;> simp [mset, mdel, h]

theorem cleanupFlag_false_iff (c : Option String) :
    cleanupFlag c = false ↔ c = some "false" := by
  cases c with
  | none => simp [cleanupFlag]
  | some v => simp [cleanupFlag]

/-! ### Characterizations of the engine operations on well-formed inputs -/

/-- On a task present in both worker tables, `_stop_task` removes the local
bookkeeping, marks the hash `STOPPED`, and raises nothing; nothing is pushed
to any queue and the active set is untouched. -/
theorem stopTask_spec (tid : String) (s : EngineState) (inst : TaskInst)
    (h1 : alookup tid s.tasks = some inst) (hg : s.taskGreenlets tid = some ()) :
    stopTask tid s =
      ({ s with tasks := aremove tid s.tasks
              , taskGreenlets := mdel tid s.taskGreenlets
              , hashes := setTaskF tid (fun h => { h with state := some "STOPPED" }) s.hashes
              , channelSubs := srem (taskControl tid) s.channelSubs }, none) := by
  simp [stopTask, cleanupTask, cleanupFinish, setTask, h1, hg, alookup_aset_self,
    aremove_aset]

/-- On a state whose hash holds a registered, constructible class, `_add_task`
rebuilds the bookkeeping: active-set membership, hash `state=RUNNING` with a
fresh `last_update`, a control-channel subscription, a greenlet, and a task
instance constructed from the hash's current `data` string. -/
theorem addTask_spec (now : Nat) (tid : String) (s : EngineState)
    (hobj : TaskHash) (cname dstr : String) (cls : TaskClassDef)
    (hh : s.hashes tid = some hobj) (ht : hobj.task = some cname)
    (hd : hobj.data = some dstr) (hcls : s.taskClasses cname = some cls)
    (hinit : cls.initExc = none) :
    addTask now tid s =
      ({ s with taskSet := sadd tid s.taskSet
              , hashes := mset tid { hobj with state := some "RUNNING", lastUpdate := some now } s.hashes
              , channelSubs := sadd (taskControl tid) s.channelSubs
              , taskGreenlets := mset tid () s.taskGreenlets
              , tasks := aset tid
                  { _id := tid, _channel := taskKey tid, _state := "RUNNING"
                  , _cleanup := cleanupFlag hobj.cleanup, _redis := none, redis := some ()
                  , className := cname, dataUsed := dstr } s.tasks }, none) := by
  simp [addTask, getTask, setTask, startTask, hh, ht, hd, hcls, hinit,
    alookup_aset_self, aset_aset, setTaskF_known tid _ s.hashes hobj hh, setTaskF_mset]

theorem cleanupFlag_true_of_ne (c : Option String) (h : c ≠ some "false") :
    cleanupFlag c = true := by
  cases hb : cleanupFlag c
  · exact absurd ((cleanupFlag_false_iff c).mp hb) h
  · rfl

/-! ### Concrete states for witnesses and counterexamples -/

/-- Base concrete state: everything empty. -/
def cstate0 : EngineState :=
  { hashes := fun _ => none, taskSet := fun _ => false, newQueue := [], endQueue := []
  , published := [], criticalLogs := [], tasks := [], taskGreenlets := fun _ => none
  , channelSubs := fun _ => false, localTaskIds := fun _ => false
  , taskClasses := fun _ => none, exceptionHandlers := [], handlerCalls := [] }

/-- A concrete task instance of the exact shape `_add_task` builds
(pytask.py lines 319-340): `redis` assigned, `_redis` left at its `None`
class default. -/
def instA (st : String) (cl : Bool) : TaskInst :=
  { _id := "a", _channel := taskKey "a", _state := st, _cleanup := cl
  , _redis := none, redis := some (), className := "echo", dataUsed := "d1" }

/-- A stopped task still present in the worker tables: the state mid
`_stop_task`, between the `STOPPED` write and the table removal, which is
exactly the stop-races-with-completion window. -/
def csC1 : EngineState :=
  { cstate0 with
      tasks := [("a", instA "STOPPED" true)]
    , taskGreenlets := fun x => if x = "a" then some () else none
    , hashes := fun x =>
        if x = "a"
        then some { emptyHash with task := some "echo", data := some "d1"
                                 , state := some "STOPPED" }
        else none }

/-- A fresh worker state holding one submitted task hash and one registered
class. -/
def csC2 : EngineState :=
  { cstate0 with
      hashes := fun x =>
        if x = "a"
        then some { emptyHash with task := some "echo", data := some "d1" }
        else none
    , taskClasses := fun x =>
        if x = "echo" then some { name := "echo", initExc := none } else none }

/-- A task acquired with hash field `cleanup = "false"`. -/
def instB : TaskInst :=
  { _id := "b", _channel := taskKey "b", _state := "RUNNING"
  , _cleanup := cleanupFlag (some "false")
  , _redis := none, redis := some (), className := "echo", dataUsed := "d1" }

/-- Two running tasks: one acquired with the `cleanup` field absent, one with
`cleanup = "false"`. -/
def csC7 : EngineState :=
  { cstate0 with
      tasks := [("a", instA "RUNNING" (cleanupFlag none)), ("b", instB)]
    , taskGreenlets := fun x => if x = "a" ∨ x = "b" then some () else none }

/-- A task-table entry with no corresponding greenlet entry. -/
def csC10 : EngineState := { cstate0 with tasks := [("ghost", instA "RUNNING" true)] }

/-! ### Claim C1 -/

/-- **C1, amended**: only the success path filters stopped tasks.  For every
task whose in-memory `_state` is `STOPPED` or `_STOPPED`, a task-body-return
arrival (`_on_task_success`) is dropped with no effect at all, so it never
writes `SUCCESS`; the claim's further guarantee about `Task.Error` arrivals
fails (see the counterexample). -/
theorem c1_success_arrivals_filtered (tid : String) (v : Option String)
    (s : EngineState) (inst : TaskInst) (h1 : alookup tid s.tasks = some inst)
    (h2 : inst._state = "STOPPED" ∨ inst._state = "_STOPPED") :
    onTaskSuccess tid v s = (s, none) := by
  rcases h2 with h2 | h2 <;> simp [onTaskSuccess, h1, h2]

theorem c1_success_arrivals_filtered_witness :
    onTaskSuccess "a" (some "out") csC1 = (csC1, none) :=
  c1_success_arrivals_filtered "a" (some "out") csC1 (instA "STOPPED" true)
    (by decide) (Or.inl (by decide))

/-- **C1, counterexample**: a `Task.Error` arrival for a task whose in-memory
`_state` is `STOPPED` is *not* dropped — `_on_task_error` (pytask.py lines
474-484) has no stopped-state guard, so it writes `ERROR` both to the
coordinator hash and to the in-memory state. -/
theorem c1_counterexample :
    (alookup "a" csC1.tasks).map TaskInst._state = some "STOPPED" ∧
    ((onTaskException "a" (Exc.taskError "late") csC1).1.hashes "a").map TaskHash.state
      = some (some "ERROR") ∧
    (alookup "a" (onTaskException "a" (Exc.taskError "late") csC1).1.tasks).map
        TaskInst._state = some "ERROR" := by
  refine ⟨by decide, by decide, by decide⟩

/-! ### Claim C2 -/

/-- **C2 (code bug)**: after a real `_add_task`, the instance's `redis`
attribute is set but the `_redis` attribute `Task.emit` reads is still `None`
(pytask.py line 339 vs task.py lines 18 and 38).  When the task body then
returns, `_handle_end_task` writes `state=SUCCESS` to the hash but the event
publish raises `AttributeError` and nothing is ever published on the event
channel (which is the task's hash key). -/
theorem c2_emit_never_publishes :
    (alookup "a" (addTask 7 "a" csC2).1.tasks).map TaskInst._redis = some none ∧
    (alookup "a" (addTask 7 "a" csC2).1.tasks).map TaskInst.redis = some (some ()) ∧
    (alookup "a" (addTask 7 "a" csC2).1.tasks).map TaskInst._channel = some (taskKey "a") ∧
    (onTaskSuccess "a" (some "out") (addTask 7 "a" csC2).1).2 = some Exc.attributeError ∧
    (onTaskSuccess "a" (some "out") (addTask 7 "a" csC2).1).1.published = [] ∧
    ((onTaskSuccess "a" (some "out") (addTask 7 "a" csC2).1).1.hashes "a").map
        TaskHash.state = some (some "SUCCESS") := by
  refine ⟨by decide, by decide, by decide, by decide, by decide, by decide⟩

/-! ### Claim C5 -/

/-- **C5**: for a task ID whose coordinator hash is missing, `_add_task` logs
one critical record and returns with no other effect — no coordinator write,
no subscription, no worker-table change, and no exception. -/
theorem c5_add_task_missing_hash (now : Nat) (tid : String) (s : EngineState)
    (h : s.hashes tid = none) :
    addTask now tid s
      = ({ s with criticalLogs :=
            s.criticalLogs ++ ["Task ID in new queue but no hash: " ++ tid] }, none) := by
  simp [addTask, getTask, h]

theorem c5_add_task_missing_hash_witness :
    addTask 0 "ghost" cstate0
      = ({ cstate0 with criticalLogs :=
            cstate0.criticalLogs ++ ["Task ID in new queue but no hash: " ++ "ghost"] }, none) :=
  c5_add_task_missing_hash 0 "ghost" cstate0 rfl

/-! ### Claim C7 -/

/-- **C7**: for a task still present in the task table, `_cleanup_task` with
`enqueue=True` pushes nothing onto the end queue when the task was acquired
with hash field `cleanup = "false"` (so `_cleanup` is false, pytask.py line
336), and pushes exactly the task ID for every other acquisition value, the
absent field included. -/
theorem c7_cleanup_field (tid : String) (s : EngineState) (inst : TaskInst)
    (c : Option String) (h1 : alookup tid s.tasks = some inst)
    (hg : s.taskGreenlets tid = some ()) (hc : inst._cleanup = cleanupFlag c) :
    (c = some "false" → (cleanupTask tid true s).1.endQueue = s.endQueue) ∧
    (c ≠ some "false" → (cleanupTask tid true s).1.endQueue = tid :: s.endQueue) := by
  constructor
  · intro hcf
    have hfalse : inst._cleanup = false := by
      rw [hc, hcf]; decide
    simp [cleanupTask, cleanupFinish, h1, hg, hfalse]
  · intro hcf
    have htrue : inst._cleanup = true := by
      rw [hc]; exact cleanupFlag_true_of_ne c hcf
    simp [cleanupTask, cleanupFinish, h1, hg, htrue]

theorem c7_cleanup_field_witness :
    (cleanupTask "b" true csC7).1.endQueue = csC7.endQueue ∧
    (cleanupTask "a" true csC7).1.endQueue = "a" :: csC7.endQueue :=
  ⟨(c7_cleanup_field "b" csC7 instB (some "false") (by decide) (by decide) rfl).1 rfl,
   (c7_cleanup_field "a" csC7 (instA "RUNNING" (cleanupFlag none)) none (by decide)
      (by decide) rfl).2 (by decide)⟩

/-! ### Claim C10 -/

/-- **C10**: `_stop_task` requires the task to be present in both worker
tables: for an ID absent from the task table the lookup raises `KeyError`
immediately (and a `"stop"` control message dispatches straight to
`_stop_task`); an ID present in the task table but absent from the greenlet
table also raises `KeyError`; whereas `_on_task_success` returns silently for
the same unknown ID. -/
theorem c10_stop_task_requires_tables (tid : String) (s : EngineState)
    (h : alookup tid s.tasks = none) :
    stopTask tid s = (s, some (Exc.keyError tid)) ∧
    (∀ now, controlTask now tid "stop" s = stopTask tid s) ∧
    (∀ v, onTaskSuccess tid v s = (s, none)) ∧
    (∀ s' inst, alookup tid s'.tasks = some inst → s'.taskGreenlets tid = none →
      (stopTask tid s').2 = some (Exc.keyError tid)) := by
  refine ⟨?_, ?_, ?_, ?_⟩
  · simp [stopTask, h]
  · intro now
    simp [controlTask]
  · intro v
    simp [onTaskSuccess, h]
  · intro s' inst h1 hg
    simp [stopTask, setTask, h1, hg]

theorem c10_stop_task_requires_tables_witness :
    stopTask "ghost" cstate0 = (cstate0, some (Exc.keyError "ghost")) ∧
    onTaskSuccess "ghost" (some "out") cstate0 = (cstate0, none) ∧
    (stopTask "ghost" csC10).2 = some (Exc.keyError "ghost") :=
  ⟨(c10_stop_task_requires_tables "ghost" cstate0 rfl).1,
   (c10_stop_task_requires_tables "ghost" cstate0 rfl).2.2.1 (some "out"),
   (c10_stop_task_requires_tables "ghost" cstate0 rfl).2.2.2 csC10
     (instA "RUNNING" true) (by decide) rfl⟩

/-! ### Handler-loop and end-task lemmas -/

theorem runHandlers_no_raise (e : Exc) (hs : List Handler) :
    ∀ s : EngineState, (∀ h ∈ hs, h.hraises = false) →
    runHandlers e hs s
      = ({ s with handlerCalls := s.handlerCalls ++ hs.map (fun h => (h.hid, e)) }, none) := by
  induction hs with
  | nil =>
    intro s _
    simp [runHandlers]
  | cons hd rest ih =>
    intro s h
    have h1 : hd.hraises = false := h hd (by simp)
    have h2 : ∀ x ∈ rest, x.hraises = false := fun x hx => h x (by simp [hx])
    simp [runHandlers, h1, ih _ h2]

theorem runHandlers_raise (e : Exc) (good : List Handler) (bad : Handler)
    (rest : List Handler) :
    ∀ s : EngineState, (∀ h ∈ good, h.hraises = false) → bad.hraises = true →
    runHandlers e (good ++ bad :: rest) s
      = ({ s with handlerCalls :=
            s.handlerCalls ++ good.map (fun h => (h.hid, e)) ++ [(bad.hid, e)] },
         some (Exc.handlerExc bad.hid)) := by
  induction good with
  | nil =>
    intro s _ hb
    simp [runHandlers, hb]
  | cons hd tl ih =>
    intro s hg hb
    have h1 : hd.hraises = false := hg hd (by simp)
    have h2 : ∀ x ∈ tl, x.hraises = false := fun x hx => hg x (by simp [hx])
    simp [runHandlers, h1, ih _ h2 hb]

theorem handleEndTask_absent (tid st : String) (out : Option String) (s : EngineState)
    (h : alookup tid s.tasks = none) :
    handleEndTask tid st out s
      = (setTask tid (fun hh => { hh with state := some st, output := out }) s, none) := by
  simp [handleEndTask, setTask, h]

theorem handleEndTask_present_noredis (tid st : String) (out : Option String)
    (s : EngineState) (inst : TaskInst) (h : alookup tid s.tasks = some inst)
    (hr : inst._redis = none) :
    handleEndTask tid st out s
      = ({ s with
            hashes := setTaskF tid
              (fun hh => { hh with state := some st, output := out }) s.hashes
          , tasks := aset tid { inst with _state := st } s.tasks },
         some Exc.attributeError) := by
  simp [handleEndTask, setTask, h, Task_emit, hr]

theorem cleanupTask_present_spec (tid : String) (enqueue : Bool) (s : EngineState)
    (inst : TaskInst) (h1 : alookup tid s.tasks = some inst)
    (hg : s.taskGreenlets tid = some ()) :
    cleanupTask tid enqueue s =
      (if enqueue && inst._cleanup then
        ({ s with channelSubs := srem (taskControl tid) s.channelSubs
                , tasks := aremove tid s.tasks
                , taskGreenlets := mdel tid s.taskGreenlets
                , endQueue := tid :: s.endQueue
                , taskSet := srem tid s.taskSet }, none)
       else
        ({ s with channelSubs := srem (taskControl tid) s.channelSubs
                , tasks := aremove tid s.tasks
                , taskGreenlets := mdel tid s.taskGreenlets }, none)) := by
  by_cases he : (enqueue && inst._cleanup) = true
  · simp [cleanupTask, cleanupFinish, h1, hg, he]
  · simp [cleanupTask, cleanupFinish, h1, hg, he]

theorem cleanupTask_absent_spec (tid : String) (enqueue : Bool) (s : EngineState)
    (h1 : alookup tid s.tasks = none) :
    cleanupTask tid enqueue s =
      (if enqueue then
        ({ s with channelSubs := srem (taskControl tid) s.channelSubs
                , endQueue := tid :: s.endQueue
                , taskSet := srem tid s.taskSet }, none)
       else ({ s with channelSubs := srem (taskControl tid) s.channelSubs }, none)) := by
  by_cases he : enqueue <;> simp [cleanupTask, cleanupFinish, h1, he]

/-! ### Claim C3 -/

theorem onTaskException_absent_noraise (tid nm : String) (s : EngineState)
    (habs : alookup tid s.tasks = none)
    (hall : ∀ h ∈ s.exceptionHandlers, h.hraises = false) :
    onTaskException tid (Exc.otherExc nm) s
      = ({ s with
            hashes := setTaskF tid
              (fun hh => { hh with state := some "EXCEPTION", output := some (format_exc (Exc.otherExc nm)) }) s.hashes
          , handlerCalls := s.handlerCalls
              ++ s.exceptionHandlers.map (fun h => (h.hid, Exc.otherExc nm))
          , channelSubs := srem (taskControl tid) s.channelSubs
          , endQueue := tid :: s.endQueue
          , taskSet := srem tid s.taskSet }, none) := by
  have hend := handleEndTask_absent tid "EXCEPTION"
    (some (format_exc (Exc.otherExc nm))) s habs
  have hrun := runHandlers_no_raise (Exc.otherExc nm) s.exceptionHandlers
    (setTask tid (fun hh => { hh with state := some "EXCEPTION", output := some (format_exc (Exc.otherExc nm)) }) s) hall
  simp only [onTaskException, hend, bindE, setTask]
  simp only [setTask] at hrun
  rw [hrun]
  simp [bindE, cleanupTask_absent_spec, habs]

theorem onTaskException_absent_raise (tid nm : String) (s : EngineState)
    (habs : alookup tid s.tasks = none) (good : List Handler) (bad : Handler)
    (rest : List Handler) (hsplit : s.exceptionHandlers = good ++ bad :: rest)
    (hgood : ∀ h ∈ good, h.hraises = false) (hbad : bad.hraises = true) :
    onTaskException tid (Exc.otherExc nm) s
      = ({ s with
            hashes := setTaskF tid
              (fun hh => { hh with state := some "EXCEPTION", output := some (format_exc (Exc.otherExc nm)) }) s.hashes
          , handlerCalls := s.handlerCalls ++ good.map (fun h => (h.hid, Exc.otherExc nm))
              ++ [(bad.hid, Exc.otherExc nm)] },
         some (Exc.handlerExc bad.hid)) := by
  have hend := handleEndTask_absent tid "EXCEPTION"
    (some (format_exc (Exc.otherExc nm))) s habs
  have hrun := runHandlers_raise (Exc.otherExc nm) good bad rest
    (setTask tid (fun hh => { hh with state := some "EXCEPTION", output := some (format_exc (Exc.otherExc nm)) }) s) hgood hbad
  simp only [onTaskException, hend, bindE, setTask]
  simp only [setTask] at hrun
  rw [hsplit] at hrun ⊢
  rw [hrun]

theorem onTaskException_present_noredis (tid nm : String) (s : EngineState)
    (inst : TaskInst) (h1 : alookup tid s.tasks = some inst)
    (hr : inst._redis = none) :
    onTaskException tid (Exc.otherExc nm) s
      = ({ s with
            hashes := setTaskF tid
              (fun hh => { hh with state := some "EXCEPTION", output := some (format_exc (Exc.otherExc nm)) }) s.hashes
          , tasks := aset tid { inst with _state := "EXCEPTION" } s.tasks },
         some Exc.attributeError) := by
  have hend := handleEndTask_present_noredis tid "EXCEPTION"
    (some (format_exc (Exc.otherExc nm))) s inst h1 hr
  simp only [onTaskException, hend, bindE]

/-- **C3, amended**: the handler loop has no isolation and runs only if the
terminal-state write completes.  When the failing task is absent from the task
table (construction failures): if no registered handler raises, each handler
is invoked exactly once, in insertion order, with the original exception, and
`_cleanup_task` then runs (pushing the ID to the end queue); but the first
raising handler aborts the loop, so later handlers are skipped and
`_cleanup_task` does not run.  When the task is still in the table, the event
emit inside `_handle_end_task` raises `AttributeError` (see C2) before any
handler is invoked. -/
theorem c3_exception_handlers_amended (tid nm : String) (s : EngineState) :
    (alookup tid s.tasks = none →
      ((∀ h ∈ s.exceptionHandlers, h.hraises = false) →
        (onTaskException tid (Exc.otherExc nm) s).2 = none ∧
        (onTaskException tid (Exc.otherExc nm) s).1.handlerCalls
          = s.handlerCalls ++ s.exceptionHandlers.map (fun h => (h.hid, Exc.otherExc nm)) ∧
        (onTaskException tid (Exc.otherExc nm) s).1.endQueue = tid :: s.endQueue) ∧
      (∀ good bad rest, s.exceptionHandlers = good ++ bad :: rest →
        (∀ h ∈ good, h.hraises = false) → bad.hraises = true →
        (onTaskException tid (Exc.otherExc nm) s).2 = some (Exc.handlerExc bad.hid) ∧
        (onTaskException tid (Exc.otherExc nm) s).1.handlerCalls
          = s.handlerCalls ++ good.map (fun h => (h.hid, Exc.otherExc nm))
              ++ [(bad.hid, Exc.otherExc nm)] ∧
        (onTaskException tid (Exc.otherExc nm) s).1.endQueue = s.endQueue)) ∧
    (∀ inst, alookup tid s.tasks = some inst → inst._redis = none →
      (onTaskException tid (Exc.otherExc nm) s).2 = some Exc.attributeError ∧
      (onTaskException tid (Exc.otherExc nm) s).1.handlerCalls = s.handlerCalls ∧
      (onTaskException tid (Exc.otherExc nm) s).1.endQueue = s.endQueue) := by
  constructor
  · intro habs
    constructor
    · intro hall
      simp [onTaskException_absent_noraise tid nm s habs hall]
    · intro good bad rest hsplit hgood hbad
      simp [onTaskException_absent_raise tid nm s habs good bad rest hsplit hgood hbad]
  · intro inst h1 hr
    simp [onTaskException_present_noredis tid nm s inst h1 hr]

/-- Worker with two registered handlers, neither of which raises, and no live
task entry (the construction-failure shape). -/
def csC3 : EngineState :=
  { cstate0 with exceptionHandlers := [⟨0, false⟩, ⟨1, false⟩] }

theorem c3_exception_handlers_amended_witness :
    (onTaskException "a" (Exc.otherExc "ValueError") csC3).2 = none ∧
    (onTaskException "a" (Exc.otherExc "ValueError") csC3).1.handlerCalls
      = csC3.handlerCalls
          ++ csC3.exceptionHandlers.map (fun h => (h.hid, Exc.otherExc "ValueError")) ∧
    (onTaskException "a" (Exc.otherExc "ValueError") csC3).1.endQueue
      = "a" :: csC3.endQueue :=
  ((c3_exception_handlers_amended "a" "ValueError" csC3).1 (by decide)).1 (by decide)

/-- A running task (engine-built shape) with one registered handler. -/
def csC3p : EngineState :=
  { cstate0 with
      tasks := [("a", instA "RUNNING" true)]
    , taskGreenlets := fun x => if x = "a" then some () else none
    , exceptionHandlers := [⟨0, false⟩] }

/-- No live task entry, first of two handlers raises. -/
def csC3r : EngineState :=
  { cstate0 with exceptionHandlers := [⟨0, true⟩, ⟨1, false⟩] }

/-- **C3, counterexample**: (i) for a body exception of a task still in the
table, the emit inside `_handle_end_task` raises `AttributeError`, so the one
registered handler is never invoked and `_cleanup_task` never runs (the task
stays in the table); (ii) even with the task absent, a raising first handler
prevents the second handler and the cleanup from running. -/
theorem c3_counterexample :
    ((onTaskException "a" (Exc.otherExc "ValueError") csC3p).1.handlerCalls = [] ∧
     (onTaskException "a" (Exc.otherExc "ValueError") csC3p).2 = some Exc.attributeError ∧
     (alookup "a" (onTaskException "a" (Exc.otherExc "ValueError") csC3p).1.tasks).isSome
       = true) ∧
    ((onTaskException "b" (Exc.otherExc "ValueError") csC3r).1.handlerCalls
       = [(0, Exc.otherExc "ValueError")] ∧
     (onTaskException "b" (Exc.otherExc "ValueError") csC3r).1.endQueue = []) := by
  refine ⟨⟨by decide, by decide, by decide⟩, by decide, by decide⟩

/-! ### Claim C4 -/

/-- A running task owning every piece of coordinator bookkeeping. -/
def csC4 : EngineState :=
  { cstate0 with
      tasks := [("a", instA "RUNNING" true)]
    , taskGreenlets := fun x => if x = "a" then some () else none
    , taskSet := fun x => x == "a"
    , channelSubs := fun x => x == taskControl "a" }

/-- **C4, counterexample**: `_cleanup_task` is not idempotent — on the second
run the task is gone from the table, so `cleanup` defaults to `True` and the
ID is pushed onto the end queue again, leaving different end-queue contents
than a single run. -/
theorem c4_counterexample :
    (cleanupTask "a" true (cleanupTask "a" true csC4).1).1.endQueue
      ≠ (cleanupTask "a" true csC4).1.endQueue := by
  decide

/-- **C4, amended**: for a task with the default `_cleanup = True`, a second
`_cleanup_task(…, enqueue=True)` leaves the worker tables, the subscriptions,
the active set, and the hashes exactly as after one run, and raises nothing —
but it pushes the ID onto the end queue a second time, so the ID of a task
that completes without external stop appears once per cleanup run, not
exactly once. -/
theorem c4_cleanup_idempotent_amended (tid : String) (s : EngineState) (inst : TaskInst)
    (h1 : alookup tid s.tasks = some inst) (hc : inst._cleanup = true)
    (hg : s.taskGreenlets tid = some ()) :
    (cleanupTask tid true s).2 = none ∧
    (cleanupTask tid true (cleanupTask tid true s).1).2 = none ∧
    (cleanupTask tid true (cleanupTask tid true s).1).1.tasks
      = (cleanupTask tid true s).1.tasks ∧
    (cleanupTask tid true (cleanupTask tid true s).1).1.taskGreenlets
      = (cleanupTask tid true s).1.taskGreenlets ∧
    (cleanupTask tid true (cleanupTask tid true s).1).1.channelSubs
      = (cleanupTask tid true s).1.channelSubs ∧
    (cleanupTask tid true (cleanupTask tid true s).1).1.taskSet
      = (cleanupTask tid true s).1.taskSet ∧
    (cleanupTask tid true (cleanupTask tid true s).1).1.hashes
      = (cleanupTask tid true s).1.hashes ∧
    (cleanupTask tid true (cleanupTask tid true s).1).1.endQueue
      = tid :: (cleanupTask tid true s).1.endQueue := by
  have hr1 := cleanupTask_present_spec tid true s inst h1 hg
  rw [hc] at hr1
  simp only [Bool.and_self, if_true] at hr1
  simp [hr1, cleanupTask_absent_spec, alookup_aremove_self, srem_srem]

theorem c4_cleanup_idempotent_amended_witness :
    (cleanupTask "a" true (cleanupTask "a" true csC4).1).1.endQueue
      = "a" :: (cleanupTask "a" true csC4).1.endQueue :=
  (c4_cleanup_idempotent_amended "a" csC4 (instA "RUNNING" true)
    (by decide) rfl rfl).2.2.2.2.2.2.2

/-! ### Claim C9 -/

theorem updateTasksH_not_mem (now : Nat) (entries : List (String × TaskInst)) :
    ∀ (hs : String → Option TaskHash) (tid : String), tid ∉ entries.map Prod.fst →
    updateTasksH now entries hs tid = hs tid := by
  induction entries with
  | nil =>
    intro hs tid _
    rfl
  | cons p rest ih =>
    intro hs tid h
    obtain ⟨k, inst⟩ := p
    simp only [List.map_cons, List.mem_cons] at h
    push_neg at h
    by_cases hr : inst._state = "RUNNING"
    · simp only [updateTasksH, hr, if_true]
      rw [ih _ tid h.2]
      simp [setTaskF, h.1]
    · simp only [updateTasksH, hr, if_false]
      exact ih _ tid h.2

theorem updateTasksH_spec (now : Nat) (entries : List (String × TaskInst)) :
    ∀ (hs : String → Option TaskHash) (tid : String),
    (entries.map Prod.fst).Nodup →
      updateTasksH now entries hs tid
        = match alookup tid entries with
          | some inst =>
            if inst._state = "RUNNING"
            then some { (hs tid).getD emptyHash with lastUpdate := some now }
            else hs tid
          | none => hs tid := by
  induction entries with
  | nil =>
    intro hs tid _
    simp [updateTasksH, alookup]
  | cons p rest ih =>
    obtain ⟨k, inst⟩ := p
    intro hs tid hnd
    simp only [List.map_cons, List.nodup_cons] at hnd
    by_cases htk : k = tid
    · by_cases hr : inst._state = "RUNNING"
      · simp only [updateTasksH, hr, if_true]
        rw [updateTasksH_not_mem now rest _ tid (htk ▸ hnd.1)]
        simp [setTaskF, alookup, htk, hr]
      · simp only [updateTasksH, hr, if_false]
        rw [updateTasksH_not_mem now rest hs tid (htk ▸ hnd.1)]
        simp [alookup, htk, hr]
    · by_cases hr : inst._state = "RUNNING"
      · simp only [updateTasksH, hr, if_true]
        rw [ih _ tid hnd.2]
        have hkt : ¬ tid = k := fun h => htk h.symm
        have hpt : setTaskF k (fun h => { h with lastUpdate := some now }) hs tid = hs tid := by
          simp [setTaskF, hkt]
        rw [hpt]
        simp [alookup, htk]
      · simp only [updateTasksH, hr, if_false]
        rw [ih _ tid hnd.2]
        simp [alookup, htk]

/-- **C9**: one liveness tick captures a single timestamp `now` and writes it
to `last_update` on the coordinator hash of exactly the task-table entries
whose in-memory `_state` is `RUNNING`; the hash of any other ID — an entry in
another state, or an ID with no entry — is untouched. -/
theorem c9_update_tasks (now : Nat) (s : EngineState) (hnd : keysNodup s.tasks)
    (tid : String) :
    (updateTasks now s).hashes tid
      = match alookup tid s.tasks with
        | some inst =>
          if inst._state = "RUNNING"
          then some { (s.hashes tid).getD emptyHash with lastUpdate := some now }
          else s.hashes tid
        | none => s.hashes tid := by
  have h := updateTasksH_spec now s.tasks s.hashes tid hnd
  simpa [updateTasks] using h

/-- Three entries — two `RUNNING`, one terminal — plus a hash with no entry. -/
def csC9 : EngineState :=
  { cstate0 with
      tasks := [("a", instA "RUNNING" true), ("b", instB), ("c", instA "SUCCESS" true)]
    , hashes := fun x =>
        if x = "a" then some { emptyHash with state := some "RUNNING" } else none }

theorem c9_update_tasks_witness :
    (updateTasks 42 csC9).hashes "a"
      = some { emptyHash with state := some "RUNNING", lastUpdate := some 42 } ∧
    (updateTasks 42 csC9).hashes "c" = csC9.hashes "c" ∧
    (updateTasks 42 csC9).hashes "d" = csC9.hashes "d" :=
  ⟨(c9_update_tasks 42 csC9 (by decide) "a").trans (by decide),
   (c9_update_tasks 42 csC9 (by decide) "c").trans (by decide),
   (c9_update_tasks 42 csC9 (by decide) "d").trans (by decide)⟩

/-! ### Claim C8 -/

/-- **C8**: `_reload_task` — `_stop_task` then `_add_task` of the same ID with
the clock reading `now` — yields *exactly* the state a fresh `_add_task` at
the same clock reading yields from the engine with that task's local
bookkeeping removed: same worker tables, same subscriptions, same coordinator
hash (state `RUNNING`, same `last_update`), same queues and events (the model
logs no timestamps or log lines besides these).  Because the hash is re-read,
the rebuilt instance is constructed from the hash's *current* `data` string
`dstr`, picking up any mutation made before the reload. -/
theorem c8_reload_round_trip (now : Nat) (tid : String) (s : EngineState)
    (inst : TaskInst) (hobj : TaskHash) (cname dstr : String) (cls : TaskClassDef)
    (h1 : alookup tid s.tasks = some inst)
    (hg : s.taskGreenlets tid = some ())
    (hh : s.hashes tid = some hobj)
    (ht : hobj.task = some cname)
    (hd : hobj.data = some dstr)
    (hcls : s.taskClasses cname = some cls)
    (hinit : cls.initExc = none) :
    reloadTask now tid s = addTask now tid (stripTask tid s) ∧
    (alookup tid (reloadTask now tid s).1.tasks).map TaskInst.dataUsed = some dstr := by
  have hstop := stopTask_spec tid s inst h1 hg
  have hhL : (setTaskF tid (fun h => { h with state := some "STOPPED" }) s.hashes) tid
      = some { hobj with state := some "STOPPED" } := by
    simp [setTaskF, hh]
  have haddL := addTask_spec now tid
    ({ s with tasks := aremove tid s.tasks
            , taskGreenlets := mdel tid s.taskGreenlets
            , hashes := setTaskF tid (fun h => { h with state := some "STOPPED" }) s.hashes
            , channelSubs := srem (taskControl tid) s.channelSubs })
    { hobj with state := some "STOPPED" } cname dstr cls hhL (by simpa using ht)
    (by simpa using hd) hcls hinit
  have haddR := addTask_spec now tid (stripTask tid s) hobj cname dstr cls
    (by simpa [stripTask] using hh) ht hd hcls hinit
  constructor
  · rw [reloadTask, hstop]
    simp only [bindE]
    rw [haddL, haddR]
    simp [stripTask, mset_setTaskF]
  · rw [reloadTask, hstop]
    simp only [bindE]
    rw [haddL]
    simp [alookup_aset_self]

/-- A running task whose hash `data` field has been mutated to `"d2"` since
the instance (built from `"d1"`) was constructed. -/
def csC8 : EngineState :=
  { cstate0 with
      tasks := [("a", instA "RUNNING" true)]
    , taskGreenlets := fun x => if x = "a" then some () else none
    , channelSubs := fun x => x == taskControl "a"
    , taskSet := fun x => x == "a"
    , hashes := fun x =>
        if x = "a"
        then some { emptyHash with task := some "echo", data := some "d2"
                                 , state := some "RUNNING" }
        else none
    , taskClasses := fun x =>
        if x = "echo" then some { name := "echo", initExc := none } else none }

theorem c8_reload_round_trip_witness :
    reloadTask 9 "a" csC8 = addTask 9 "a" (stripTask "a" csC8) ∧
    (alookup "a" (reloadTask 9 "a" csC8).1.tasks).map TaskInst.dataUsed = some "d2" :=
  c8_reload_round_trip 9 "a" csC8 (instA "RUNNING" true)
    { emptyHash with task := some "echo", data := some "d2", state := some "RUNNING" }
    "echo" "d2" { name := "echo", initExc := none }
    (by decide) (by decide) (by decide) (by decide) (by decide) (by decide) rfl

/-! ### Claim C6 -/

theorem exists_alookup_of_mem_keys {α : Type} (k : String) (l : List (String × α))
    (h : k ∈ l.map Prod.fst) : ∃ v, alookup k l = some v := by
  induction l with
  | nil => simp at h
  | cons p rest ih =>
    obtain ⟨k', v⟩ := p
    by_cases hk : k' = k
    · exact ⟨v, by simp [alookup, hk]⟩
    · simp only [List.map_cons, List.mem_cons] at h
      rcases h with h | h
      · exact absurd h.symm hk
      · obtain ⟨w, hw⟩ := ih h
        exact ⟨w, by simp [alookup, hk, hw]⟩

/-- Worker/coordinator effect of the shutdown loop body on a local `RUNNING`
task: `_stop_task`, then delete the hash and leave the active set. -/
def stepLocalState (tid : String) (t : EngineState) : EngineState :=
  { t with tasks := aremove tid t.tasks
         , taskGreenlets := mdel tid t.taskGreenlets
         , hashes := mdel tid t.hashes
         , channelSubs := srem (taskControl tid) t.channelSubs
         , taskSet := srem tid t.taskSet }

/-- Effect of the shutdown loop body on a non-local `RUNNING` task:
`_stop_task`, then left-push the ID onto the new queue. -/
def stepRequeueState (tid : String) (t : EngineState) : EngineState :=
  { t with tasks := aremove tid t.tasks
         , taskGreenlets := mdel tid t.taskGreenlets
         , hashes := setTaskF tid (fun h => { h with state := some "STOPPED" }) t.hashes
         , channelSubs := srem (taskControl tid) t.channelSubs
         , newQueue := tid :: t.newQueue }

theorem shutdownStep_skip (tid : String) (t : EngineState) (inst : TaskInst)
    (h1 : alookup tid t.tasks = some inst) (hr : inst._state ≠ "RUNNING") :
    shutdownStep (t, none) tid = (t, none) := by
  simp [shutdownStep, bindE, h1, hr]

theorem shutdownStep_running (tid : String) (t : EngineState) (inst : TaskInst)
    (h1 : alookup tid t.tasks = some inst) (hg : t.taskGreenlets tid = some ())
    (hr : inst._state = "RUNNING") :
    shutdownStep (t, none) tid =
      (if t.localTaskIds tid then stepLocalState tid t else stepRequeueState tid t,
       none) := by
  have hstop := stopTask_spec tid t inst h1 hg
  by_cases hl : t.localTaskIds tid = true
  · simp [shutdownStep, bindE, h1, hr, hstop, hl, stepLocalState, mdel_setTaskF]
  · have hlf : t.localTaskIds tid = false := by
      cases hb : t.localTaskIds tid
      · rfl
      · exact absurd hb hl
    simp [shutdownStep, bindE, h1, hr, hstop, hlf, stepRequeueState]

theorem shutdown_fold_spec (ids : List String) :
    ∀ t : EngineState, ids.Nodup →
    (∀ tid, tid ∈ ids →
      ∃ inst, alookup tid t.tasks = some inst ∧ t.taskGreenlets tid = some ()) →
    (ids.foldl shutdownStep (t, none)).2 = none ∧
    (ids.foldl shutdownStep (t, none)).1.localTaskIds = t.localTaskIds ∧
    (∀ tid,
      (tid ∉ ids ∨ ∃ inst, alookup tid t.tasks = some inst ∧ inst._state ≠ "RUNNING") →
      (ids.foldl shutdownStep (t, none)).1.hashes tid = t.hashes tid ∧
      alookup tid (ids.foldl shutdownStep (t, none)).1.tasks = alookup tid t.tasks ∧
      (ids.foldl shutdownStep (t, none)).1.taskSet tid = t.taskSet tid ∧
      lcount tid (ids.foldl shutdownStep (t, none)).1.newQueue = lcount tid t.newQueue) ∧
    (∀ tid inst, tid ∈ ids → alookup tid t.tasks = some inst →
      inst._state = "RUNNING" →
      alookup tid (ids.foldl shutdownStep (t, none)).1.tasks = none ∧
      (t.localTaskIds tid = true →
        (ids.foldl shutdownStep (t, none)).1.hashes tid = none ∧
        (ids.foldl shutdownStep (t, none)).1.taskSet tid = false ∧
        lcount tid (ids.foldl shutdownStep (t, none)).1.newQueue
          = lcount tid t.newQueue) ∧
      (t.localTaskIds tid = false →
        (ids.foldl shutdownStep (t, none)).1.hashes tid
          = some { (t.hashes tid).getD emptyHash with state := some "STOPPED" } ∧
        lcount tid (ids.foldl shutdownStep (t, none)).1.newQueue
          = lcount tid t.newQueue + 1)) := by
  induction ids with
  | nil =>
    intro t _ _
    exact ⟨rfl, rfl, fun tid _ => ⟨rfl, rfl, rfl, rfl⟩,
           fun tid inst hm => absurd hm (List.not_mem_nil tid)⟩
  | cons k rest ih =>
    intro t hnd H2
    simp only [List.nodup_cons] at hnd
    obtain ⟨hkrest, hndrest⟩ := hnd
    obtain ⟨instK, hK, hgK⟩ := H2 k (List.mem_cons_self k rest)
    rw [List.foldl_cons]
    by_cases hrK : instK._state = "RUNNING"
    · rw [shutdownStep_running k t instK hK hgK hrK]
      by_cases hlK : t.localTaskIds k = true
      · rw [if_pos hlK]
        have hfr : ∀ tid, tid ≠ k →
            (stepLocalState k t).hashes tid = t.hashes tid ∧
            alookup tid (stepLocalState k t).tasks = alookup tid t.tasks ∧
            (stepLocalState k t).taskGreenlets tid = t.taskGreenlets tid ∧
            (stepLocalState k t).taskSet tid = t.taskSet tid := by
          intro tid hne
          refine ⟨?_, ?_, ?_, ?_⟩
          · simp [stepLocalState, mdel, hne]
          · simp [stepLocalState, alookup_aremove_ne k tid t.tasks (Ne.symm hne)]
          · simp [stepLocalState, mdel, hne]
          · simp [stepLocalState, srem, hne]
        have H2' : ∀ tid, tid ∈ rest →
            ∃ inst, alookup tid (stepLocalState k t).tasks = some inst ∧
              (stepLocalState k t).taskGreenlets tid = some () := by
          intro tid hm
          have hne : tid ≠ k := fun h => hkrest (h ▸ hm)
          obtain ⟨inst, hi, hgi⟩ := H2 tid (List.mem_cons_of_mem k hm)
          exact ⟨inst, ((hfr tid hne).2.1).trans hi, ((hfr tid hne).2.2.1).trans hgi⟩
        obtain ⟨ih1, ih2, ih3, ih4⟩ := ih (stepLocalState k t) hndrest H2'
        refine ⟨ih1, ih2, ?_, ?_⟩
        · intro tid hcase
          have hne : tid ≠ k := by
            rcases hcase with hnm | ⟨inst, hi, hr⟩
            · exact fun h => hnm (h ▸ List.mem_cons_self k rest)
            · intro h
              rw [h, hK] at hi
              injection hi with hi2
              exact hr (hi2 ▸ hrK)
          have hcase' : tid ∉ rest ∨
              ∃ inst, alookup tid (stepLocalState k t).tasks = some inst ∧
                inst._state ≠ "RUNNING" := by
            rcases hcase with hnm | ⟨inst, hi, hr⟩
            · exact Or.inl (fun hm => hnm (List.mem_cons_of_mem k hm))
            · exact Or.inr ⟨inst, ((hfr tid hne).2.1).trans hi, hr⟩
          obtain ⟨f1, f2, f3, f4⟩ := ih3 tid hcase'
          exact ⟨f1.trans (hfr tid hne).1, f2.trans (hfr tid hne).2.1,
                 f3.trans (hfr tid hne).2.2.2, f4⟩
        · intro tid inst hm hi hrun
          rcases List.mem_cons.mp hm with rfl | hm2
          · obtain ⟨f1, f2, f3, f4⟩ := ih3 tid (Or.inl hkrest)
            refine ⟨?_, ?_, ?_⟩
            · rw [f2]
              simp [stepLocalState, alookup_aremove_self]
            · intro _
              refine ⟨?_, ?_, ?_⟩
              · rw [f1]
                simp [stepLocalState, mdel]
              · rw [f3]
                simp [stepLocalState, srem]
              · exact f4
            · intro hf
              rw [hlK] at hf
              exact Bool.noConfusion hf
          · have hne : tid ≠ k := fun h => hkrest (h ▸ hm2)
            have hi' : alookup tid (stepLocalState k t).tasks = some inst :=
              ((hfr tid hne).2.1).trans hi
            obtain ⟨m1, m2, m3⟩ := ih4 tid inst hm2 hi' hrun
            refine ⟨m1, ?_, ?_⟩
            · intro hl
              obtain ⟨g1, g2, g3⟩ := m2 hl
              exact ⟨g1, g2, g3⟩
            · intro hl
              obtain ⟨g1, g2⟩ := m3 hl
              refine ⟨?_, g2⟩
              rw [g1, (hfr tid hne).1]
      · rw [if_neg hlK]
        have hlKf : t.localTaskIds k = false := by
          cases hb : t.localTaskIds k
          · rfl
          · exact absurd hb hlK
        have hfr : ∀ tid, tid ≠ k →
            (stepRequeueState k t).hashes tid = t.hashes tid ∧
            alookup tid (stepRequeueState k t).tasks = alookup tid t.tasks ∧
            (stepRequeueState k t).taskGreenlets tid = t.taskGreenlets tid ∧
            lcount tid (stepRequeueState k t).newQueue = lcount tid t.newQueue := by
          intro tid hne
          refine ⟨?_, ?_, ?_, ?_⟩
          · simp [stepRequeueState, setTaskF, hne]
          · simp [stepRequeueState, alookup_aremove_ne k tid t.tasks (Ne.symm hne)]
          · simp [stepRequeueState, mdel, hne]
          · simp [stepRequeueState, lcount_cons_ne tid k t.newQueue (Ne.symm hne)]
        have H2' : ∀ tid, tid ∈ rest →
            ∃ inst, alookup tid (stepRequeueState k t).tasks = some inst ∧
              (stepRequeueState k t).taskGreenlets tid = some () := by
          intro tid hm
          have hne : tid ≠ k := fun h => hkrest (h ▸ hm)
          obtain ⟨inst, hi, hgi⟩ := H2 tid (List.mem_cons_of_mem k hm)
          exact ⟨inst, ((hfr tid hne).2.1).trans hi, ((hfr tid hne).2.2.1).trans hgi⟩
        obtain ⟨ih1, ih2, ih3, ih4⟩ := ih (stepRequeueState k t) hndrest H2'
        refine ⟨ih1, ih2, ?_, ?_⟩
        · intro tid hcase
          have hne : tid ≠ k := by
            rcases hcase with hnm | ⟨inst, hi, hr⟩
            · exact fun h => hnm (h ▸ List.mem_cons_self k rest)
            · intro h
              rw [h, hK] at hi
              injection hi with hi2
              exact hr (hi2 ▸ hrK)
          have hcase' : tid ∉ rest ∨
              ∃ inst, alookup tid (stepRequeueState k t).tasks = some inst ∧
                inst._state ≠ "RUNNING" := by
            rcases hcase with hnm | ⟨inst, hi, hr⟩
            · exact Or.inl (fun hm => hnm (List.mem_cons_of_mem k hm))
            · exact Or.inr ⟨inst, ((hfr tid hne).2.1).trans hi, hr⟩
          obtain ⟨f1, f2, f3, f4⟩ := ih3 tid hcase'
          refine ⟨f1.trans (hfr tid hne).1, f2.trans (hfr tid hne).2.1, f3, ?_⟩
          exact f4.trans (hfr tid hne).2.2.2
        · intro tid inst hm hi hrun
          rcases List.mem_cons.mp hm with rfl | hm2
          · obtain ⟨f1, f2, f3, f4⟩ := ih3 tid (Or.inl hkrest)
            refine ⟨?_, ?_, ?_⟩
            · rw [f2]
              simp [stepRequeueState, alookup_aremove_self]
            · intro hl
              rw [hlKf] at hl
              exact Bool.noConfusion hl
            · intro _
              refine ⟨?_, ?_⟩
              · rw [f1]
                simp [stepRequeueState, setTaskF]
              · rw [f4]
                simp [stepRequeueState, lcount_cons_self]
          · have hne : tid ≠ k := fun h => hkrest (h ▸ hm2)
            have hi' : alookup tid (stepRequeueState k t).tasks = some inst :=
              ((hfr tid hne).2.1).trans hi
            obtain ⟨m1, m2, m3⟩ := ih4 tid inst hm2 hi' hrun
            refine ⟨m1, ?_, ?_⟩
            · intro hl
              obtain ⟨g1, g2, g3⟩ := m2 hl
              exact ⟨g1, g2, g3.trans (hfr tid hne).2.2.2⟩
            · intro hl
              obtain ⟨g1, g2⟩ := m3 hl
              refine ⟨?_, ?_⟩
              · rw [g1, (hfr tid hne).1]
              · rw [g2, (hfr tid hne).2.2.2]
    · rw [shutdownStep_skip k t instK hK hrK]
      obtain ⟨ih1, ih2, ih3, ih4⟩ :=
        ih t hndrest (fun tid hm => H2 tid (List.mem_cons_of_mem k hm))
      refine ⟨ih1, ih2, ?_, ?_⟩
      · intro tid hcase
        apply ih3
        rcases hcase with hnm | hex
        · exact Or.inl (fun hm => hnm (List.mem_cons_of_mem k hm))
        · exact Or.inr hex
      · intro tid inst hm hi hrun
        rcases List.mem_cons.mp hm with rfl | hm2
        · rw [hK] at hi
          injection hi with hi2
          rw [← hi2] at hrun
          exact absurd hrun hrK
        · exact ih4 tid inst hm2 hi hrun

/-- **C6**: the clean-interrupt loop of `run` (pytask.py lines 187-202) raises
nothing and, for every entry of the task table whose `_state` is `RUNNING`:
the entry leaves the worker task table (it was stopped via `_stop_task`); if
the ID is local its coordinator hash ends deleted, it is absent from the
active set, and it is never pushed onto the new queue; otherwise its hash ends
with `state = STOPPED` and the ID is left-pushed onto the new queue exactly
once (its multiplicity grows by exactly one).  Local task IDs — whatever their
state — are never pushed onto the new queue. -/
theorem c6_shutdown_requeue (s : EngineState) (hnd : keysNodup s.tasks)
    (hg : ∀ tid ∈ s.tasks.map Prod.fst, s.taskGreenlets tid = some ()) :
    (shutdownRequeue s).2 = none ∧
    (∀ tid inst, alookup tid s.tasks = some inst → inst._state = "RUNNING" →
      alookup tid (shutdownRequeue s).1.tasks = none ∧
      (s.localTaskIds tid = true →
        (shutdownRequeue s).1.hashes tid = none ∧
        (shutdownRequeue s).1.taskSet tid = false ∧
        lcount tid (shutdownRequeue s).1.newQueue = lcount tid s.newQueue) ∧
      (s.localTaskIds tid = false →
        (shutdownRequeue s).1.hashes tid
          = some { (s.hashes tid).getD emptyHash with state := some "STOPPED" } ∧
        lcount tid (shutdownRequeue s).1.newQueue = lcount tid s.newQueue + 1)) ∧
    (∀ tid, s.localTaskIds tid = true →
      lcount tid (shutdownRequeue s).1.newQueue = lcount tid s.newQueue) := by
  have H2 : ∀ tid, tid ∈ s.tasks.map Prod.fst →
      ∃ inst, alookup tid s.tasks = some inst ∧ s.taskGreenlets tid = some () := by
    intro tid hm
    obtain ⟨inst, hi⟩ := exists_alookup_of_mem_keys tid s.tasks hm
    exact ⟨inst, hi, hg tid hm⟩
  obtain ⟨p1, _, p3, p4⟩ := shutdown_fold_spec (s.tasks.map Prod.fst) s hnd H2
  refine ⟨p1, ?_, ?_⟩
  · intro tid inst hi hrun
    exact p4 tid inst (mem_keys_of_alookup_some tid inst s.tasks hi) hi hrun
  · intro tid hl
    by_cases hm : tid ∈ s.tasks.map Prod.fst
    · obtain ⟨inst, hi, _⟩ := H2 tid hm
      by_cases hrun : inst._state = "RUNNING"
      · exact ((p4 tid inst hm hi hrun).2.1 hl).2.2
      · exact (p3 tid (Or.inr ⟨inst, hi, hrun⟩)).2.2.2
    · exact (p3 tid (Or.inl hm)).2.2.2

/-- A local running task `"a"` and a non-local running task `"b"`, both fully
set up. -/
def csC6 : EngineState :=
  { cstate0 with
      tasks := [("a", instA "RUNNING" true), ("b", instB)]
    , taskGreenlets := fun x => if x = "a" ∨ x = "b" then some () else none
    , localTaskIds := fun x => x == "a"
    , taskSet := fun x => x == "a" || x == "b"
    , hashes := fun x =>
        if x = "a" ∨ x = "b"
        then some { emptyHash with task := some "echo", state := some "RUNNING" }
        else none }

theorem c6_shutdown_requeue_witness :
    (shutdownRequeue csC6).2 = none ∧
    (shutdownRequeue csC6).1.hashes "a" = none ∧
    (shutdownRequeue csC6).1.taskSet "a" = false ∧
    lcount "a" (shutdownRequeue csC6).1.newQueue = lcount "a" csC6.newQueue ∧
    (shutdownRequeue csC6).1.hashes "b"
      = some { (csC6.hashes "b").getD emptyHash with state := some "STOPPED" } ∧
    lcount "b" (shutdownRequeue csC6).1.newQueue = lcount "b" csC6.newQueue + 1 := by
  obtain ⟨p1, pmain, _⟩ := c6_shutdown_requeue csC6 (by decide) (by decide)
  have ha := pmain "a" (instA "RUNNING" true) (by decide) (by decide)
  have hb := pmain "b" instB (by decide) (by decide)
  exact ⟨p1, (ha.2.1 (by decide)).1, (ha.2.1 (by decide)).2.1, (ha.2.1 (by decide)).2.2,
         (hb.2.2 (by decide)).1, (hb.2.2 (by decide)).2⟩
